import Mathlib

/-!
Verification development for the Usage-vs-Revenue analyzer's Aggregation &
Insight Engine (`app/services/aggregation_service.py` together with the row
model of `app/models/db_models.py`).

Shallow embedding conventions:
* SQL rows become Lean structures with the same field names and order;
  nullable columns become `Option`; SQL `FLOAT` becomes `ℚ` (exact
  arithmetic stands in for IEEE doubles; no claim here depends on rounding).
* Datetimes are rationals measured in days, so `date.replace(hour=0, ...)`
  is `Rat.floor` and `timedelta(days=1)` is `+ 1`.
* The store (a SQLAlchemy session over the default SQLite database) becomes
  an explicit `DBState` record of row lists that every operation threads.
* SQL `GROUP BY` over an unordered result set is embedded as grouping over
  the distinct keys of the row list (`List.dedup`); SQL guarantees no
  ordering for ungrouped/unordered queries, so any deterministic choice is a
  faithful refinement of it.
-/

/-- `customers` table (the columns the engine reads). -/
structure Customer where
  id : Nat
  external_customer_id : String
  name : String
  plan : Option String
deriving DecidableEq

/-- `usage_events` table (the columns the engine reads). -/
structure UsageEvent where
  id : Nat
  customer_id : Nat
  feature : String
  quantity : ℚ
  unit_cost : ℚ
  timestamp : ℚ
deriving DecidableEq

/-- `revenue_events` table (the columns the engine reads). -/
structure RevenueEvent where
  id : Nat
  customer_id : Nat
  amount : ℚ
  timestamp : ℚ
deriving DecidableEq

/-- `daily_aggregates` table. Field order follows the schema; the schema
default for each metric column is `0.0` (resp. `0`). -/
structure DailyAggregate where
  date : ℚ
  customer_id : Option Nat
  feature : Option String
  usage_total : ℚ
  usage_count : Nat
  revenue_total : ℚ
  cost_total : ℚ
deriving DecidableEq

/-- `SeverityType(enum.Enum)`: INFO = "info", WARNING = "warning",
CRITICAL = "critical". -/
inductive SeverityType where
  | INFO
  | WARNING
  | CRITICAL
deriving DecidableEq

/-- `InsightType(enum.Enum)`. -/
inductive InsightType where
  | HIGH_USAGE
  | LOW_REVENUE
  | UNPROFITABLE_FEATURE
  | LEGACY_PLAN
  | THRESHOLD_EXCEEDED
deriving DecidableEq

/-- `insight_flags` table. `is_active` is an integer column used as a
boolean (1 = active, 0 = resolved). -/
structure InsightFlag where
  id : Nat
  customer_id : Option Nat
  insight_type : InsightType
  severity : SeverityType
  category : String
  title : String
  message : String
  metric_value : Option String
  is_active : Nat
  created_at : ℚ
  resolved_at : Option ℚ
deriving DecidableEq

/-- The relational store as seen through the session. -/
structure DBState where
  customers : List Customer
  usage_events : List UsageEvent
  revenue_events : List RevenueEvent
  daily_aggregates : List DailyAggregate
  insight_flags : List InsightFlag
deriving DecidableEq

/-- `date.replace(hour=0, minute=0, second=0, microsecond=0)`: truncation of
a datetime (in days) to its day boundary. -/
def startOfDay (d : ℚ) : ℚ := (Rat.floor d : ℤ)

/-- Membership of a timestamp in the half-open day window
`[start_of_day, start_of_day + 1)`. -/
def inDayWindow (s t : ℚ) : Bool := decide (s ≤ t ∧ t < s + 1)

/-- The `UsageEvent` rows of the materialization day window
(`UsageEvent.timestamp >= start_of_day AND < end_of_day`). -/
def windowUsage (s : ℚ) (st : DBState) : List UsageEvent :=
  st.usage_events.filter (fun e => inDayWindow s e.timestamp)

/-- The lookup key of the customer-scoped upsert:
`date == start_of_day AND customer_id == cid AND feature IS NULL`. -/
def custKey (s : ℚ) (cid : Nat) (a : DailyAggregate) : Bool :=
  decide (a.date = s ∧ a.customer_id = some cid ∧ a.feature = none)

/-- The lookup key of the feature-scoped upsert:
`date == start_of_day AND customer_id IS NULL AND feature == f`. -/
def featKey (s : ℚ) (f : String) (a : DailyAggregate) : Bool :=
  decide (a.date = s ∧ a.customer_id = none ∧ a.feature = some f)

/-- One insert-or-overwrite step of `materialize_daily_aggregates`:
locate a row by key, overwrite it in place via `upd`, or append `fresh`. -/
structure UpsertSpec where
  key : DailyAggregate → Bool
  upd : DailyAggregate → DailyAggregate
  fresh : DailyAggregate

/-- `.first()` + overwrite, or `session.add` + `created += 1`.
Returns the updated row list and the number of rows newly inserted
(0 or 1). -/
def upsertAgg (sp : UpsertSpec) : List DailyAggregate → List DailyAggregate × Nat
  | [] => ([sp.fresh], 1)
  | a :: l =>
    if sp.key a then (sp.upd a :: l, 0)
    else
      let p := upsertAgg sp l
      (a :: p.1, p.2)

/-- Run the upserts of one materialization pass in order, accumulating the
created-count. -/
def runUpserts : List UpsertSpec → List DailyAggregate → List DailyAggregate × Nat
  | [], l => (l, 0)
  | sp :: sps, l =>
    let p := upsertAgg sp l
    let q := runUpserts sps p.1
    (q.1, p.2 + q.2)

/-- Window usage events of one customer (`GROUP BY customer_id` member
rows). -/
def custWinEvents (s : ℚ) (st : DBState) (cid : Nat) : List UsageEvent :=
  (windowUsage s st).filter (fun e => decide (e.customer_id = cid))

/-- `func.sum(UsageEvent.quantity)` for one customer group. -/
def custUsageTotal (s : ℚ) (st : DBState) (cid : Nat) : ℚ :=
  ((custWinEvents s st cid).map (fun e => e.quantity)).sum

/-- `func.count(UsageEvent.id)` for one customer group. -/
def custUsageCount (s : ℚ) (st : DBState) (cid : Nat) : Nat :=
  (custWinEvents s st cid).length

/-- `func.sum(UsageEvent.quantity * UsageEvent.unit_cost)` for one customer
group. -/
def custCostTotal (s : ℚ) (st : DBState) (cid : Nat) : ℚ :=
  ((custWinEvents s st cid).map (fun e => e.quantity * e.unit_cost)).sum

/-- Revenue of one customer within the day window:
`func.sum(RevenueEvent.amount) ... .scalar() or 0.0` (the sum of an empty
list is already 0). -/
def custRevenue (s : ℚ) (st : DBState) (cid : Nat) : ℚ :=
  ((st.revenue_events.filter (fun r =>
      decide (r.customer_id = cid) && inDayWindow s r.timestamp)).map
    (fun r => r.amount)).sum

/-- Overwrite of an existing customer-scoped row: all four metric fields are
replaced. -/
def custUpd (s : ℚ) (st : DBState) (cid : Nat) (a : DailyAggregate) : DailyAggregate :=
  { a with
    usage_total := custUsageTotal s st cid
    usage_count := custUsageCount s st cid
    cost_total := custCostTotal s st cid
    revenue_total := custRevenue s st cid }

/-- Newly inserted customer-scoped row. -/
def custFresh (s : ℚ) (st : DBState) (cid : Nat) : DailyAggregate :=
  { date := s
    customer_id := some cid
    feature := none
    usage_total := custUsageTotal s st cid
    usage_count := custUsageCount s st cid
    revenue_total := custRevenue s st cid
    cost_total := custCostTotal s st cid }

/-- The customer-scoped upsert of one `GROUP BY customer_id` group. -/
def custSpec (s : ℚ) (st : DBState) (cid : Nat) : UpsertSpec :=
  ⟨custKey s cid, custUpd s st cid, custFresh s st cid⟩

/-- Window usage events of one feature (`GROUP BY feature` member rows). -/
def featWinEvents (s : ℚ) (st : DBState) (f : String) : List UsageEvent :=
  (windowUsage s st).filter (fun e => decide (e.feature = f))

/-- `func.sum(UsageEvent.quantity)` for one feature group. -/
def featUsageTotal (s : ℚ) (st : DBState) (f : String) : ℚ :=
  ((featWinEvents s st f).map (fun e => e.quantity)).sum

/-- `func.count(UsageEvent.id)` for one feature group. -/
def featUsageCount (s : ℚ) (st : DBState) (f : String) : Nat :=
  (featWinEvents s st f).length

/-- `func.sum(UsageEvent.quantity * UsageEvent.unit_cost)` for one feature
group. -/
def featCostTotal (s : ℚ) (st : DBState) (f : String) : ℚ :=
  ((featWinEvents s st f).map (fun e => e.quantity * e.unit_cost)).sum

/-- Overwrite of an existing feature-scoped row: only `usage_total`,
`usage_count` and `cost_total` are replaced; `revenue_total` is not
touched by this pass. -/
def featUpd (s : ℚ) (st : DBState) (f : String) (a : DailyAggregate) : DailyAggregate :=
  { a with
    usage_total := featUsageTotal s st f
    usage_count := featUsageCount s st f
    cost_total := featCostTotal s st f }

/-- Newly inserted feature-scoped row; `revenue_total` is not passed to the
constructor, so it takes the column default `0.0`. -/
def featFresh (s : ℚ) (st : DBState) (f : String) : DailyAggregate :=
  { date := s
    customer_id := none
    feature := some f
    usage_total := featUsageTotal s st f
    usage_count := featUsageCount s st f
    revenue_total := 0
    cost_total := featCostTotal s st f }

/-- The feature-scoped upsert of one `GROUP BY feature` group. -/
def featSpec (s : ℚ) (st : DBState) (f : String) : UpsertSpec :=
  ⟨featKey s f, featUpd s st f, featFresh s st f⟩

/-- The whole materialization pass as an ordered list of upserts: the
customer groups of the day window first, then the feature groups, matching
the two loops of the source. -/
def materializeSpecs (s : ℚ) (st : DBState) : List UpsertSpec :=
  (((windowUsage s st).map (fun e => e.customer_id)).dedup).map (custSpec s st)
    ++ (((windowUsage s st).map (fun e => e.feature)).dedup).map (featSpec s st)

/-- `AggregationService.materialize_daily_aggregates(date)`. Returns the
created-count and the committed store. Only `daily_aggregates` is written.
The row list is threaded through the upserts; the session (autoflush off)
instead shows each lookup the pre-call table plus in-place mutations — the
two agree because the upsert keys are pairwise disjoint, so no lookup can
observe another group's insert or overwrite. -/
def materialize_daily_aggregates (d : ℚ) (st : DBState) : Nat × DBState :=
  let s := startOfDay d
  let p := runUpserts (materializeSpecs s st) st.daily_aggregates
  (p.2, { st with daily_aggregates := p.1 })

/-! ### Insight Engine (`compute_insights`) -/

/-- The string SQLAlchemy persists for a severity: with a Python
`enum.Enum`, the `Enum` column type stores the member NAME (here `INFO`,
`WARNING`, `CRITICAL`), not the member value. The default SQLite store
compares these as plain strings. -/
def severityName : SeverityType → String
  | SeverityType.INFO => "INFO"
  | SeverityType.WARNING => "WARNING"
  | SeverityType.CRITICAL => "CRITICAL"

/-- `SeverityType.value` as used by `insight.severity.value` on a loaded
row. -/
def severityValue : SeverityType → String
  | SeverityType.INFO => "info"
  | SeverityType.WARNING => "warning"
  | SeverityType.CRITICAL => "critical"

/-- Rendering of a numeric value inside a message/metric string. Python's
locale formatting (thousands separators, fixed decimals) is abstracted to
the canonical rational rendering; no claim inspects the digits. -/
def ratStr (q : ℚ) : String := toString q

/-- The rule-derived content of an `InsightFlag` row: every column the
rules themselves choose (identity, activity and timestamps are bookkeeping
added at insert time). -/
structure FlagContent where
  customer_id : Option Nat
  insight_type : InsightType
  severity : SeverityType
  category : String
  title : String
  message : String
  metric_value : Option String
deriving DecidableEq

/-- Projection of a stored flag back to its rule-derived content. -/
def InsightFlag.content (f : InsightFlag) : FlagContent :=
  ⟨f.customer_id, f.insight_type, f.severity, f.category, f.title, f.message,
    f.metric_value⟩

/-- One result row of the high-usage/low-revenue query (`Customer.id`,
`Customer.name`, `total_usage`, `total_revenue`). -/
structure HighUsageRow where
  id : Nat
  name : String
  total_usage : ℚ
  total_revenue : Option ℚ
deriving DecidableEq

/-- All usage events of a customer (entire history, not windowed). -/
def custAllUsage (st : DBState) (cid : Nat) : List UsageEvent :=
  st.usage_events.filter (fun e => decide (e.customer_id = cid))

/-- All revenue events of a customer (entire history, not windowed). -/
def custAllRevenue (st : DBState) (cid : Nat) : List RevenueEvent :=
  st.revenue_events.filter (fun r => decide (r.customer_id = cid))

/-- Insight 1 query: `Customer JOIN UsageEvent OUTERJOIN RevenueEvent
GROUP BY Customer.id, Customer.name HAVING sum(quantity) > 10000 AND
coalesce(sum(amount), 0) < 100`.

The inner join drops customers without usage events.  The join pairs every
usage row with every revenue row of the customer, so over the joined rows
`SUM(UsageEvent.quantity)` is the plain quantity sum multiplied by the
number of revenue rows (when there are any), and `SUM(RevenueEvent.amount)`
is the plain amount sum multiplied by the number of usage rows; with no
revenue rows the left outer join leaves `SUM(amount)` NULL. -/
def highUsageLowRevenueRows (st : DBState) : List HighUsageRow :=
  st.customers.filterMap (fun c =>
    let u := custAllUsage st c.id
    let r := custAllRevenue st c.id
    if u.isEmpty then none
    else
      let tu : ℚ := ((u.map (fun e => e.quantity)).sum) * (max r.length 1)
      let tr : Option ℚ :=
        if r.isEmpty then none
        else some (((r.map (fun e => e.amount)).sum) * u.length)
      if decide (tu > 10000 ∧ tr.getD 0 < 100) then
        some ⟨c.id, c.name, tu, tr⟩
      else none)

/-- The `InsightFlag` content built for a high-usage/low-revenue row. -/
def highContent (r : HighUsageRow) : FlagContent :=
  { customer_id := some r.id
    insight_type := InsightType.LOW_REVENUE
    severity := SeverityType.CRITICAL
    category := "customer"
    title := "High Usage, Low Revenue"
    message := r.name ++ " has high usage (" ++ ratStr r.total_usage
      ++ ") but low revenue ($" ++ ratStr (r.total_revenue.getD 0) ++ ")"
    metric_value := some ("Revenue/Unit: $"
      ++ ratStr ((r.total_revenue.getD 0) / r.total_usage)) }

/-- One result row of the unprofitable-feature query. -/
structure UnprofRow where
  feature : String
  total_cost : ℚ
  total_revenue : ℚ
deriving DecidableEq

/-- Insight 2 query: over `DailyAggregate` rows with `feature IS NOT NULL
AND date >= utcnow() - 30 days` (the filter has no upper date bound),
grouped by feature, `HAVING sum(cost_total) > sum(revenue_total)`.
`revenue_total` is a non-null column (schema default 0.0), so the group sum
is never NULL. -/
def unprofitableFeatureRows (now : ℚ) (aggs : List DailyAggregate) : List UnprofRow :=
  let rows := aggs.filter (fun a => decide (a.feature ≠ none ∧ now - 30 ≤ a.date))
  ((rows.filterMap (fun a => a.feature)).dedup).filterMap (fun f =>
    let frows := rows.filter (fun a => decide (a.feature = some f))
    let cost := (frows.map (fun a => a.cost_total)).sum
    let rev := (frows.map (fun a => a.revenue_total)).sum
    if cost > rev then some ⟨f, cost, rev⟩ else none)

/-- The `InsightFlag` content built for an unprofitable-feature row:
CRITICAL when the loss strictly exceeds 1000, otherwise WARNING. -/
def unprofContent (r : UnprofRow) : FlagContent :=
  { customer_id := none
    insight_type := InsightType.UNPROFITABLE_FEATURE
    severity := if r.total_cost - r.total_revenue > 1000 then
        SeverityType.CRITICAL
      else SeverityType.WARNING
    category := "feature"
    title := "Unprofitable Feature"
    message := "Feature \"" ++ r.feature ++ "\" costs $" ++ ratStr r.total_cost
      ++ " but generates $" ++ ratStr r.total_revenue
    metric_value := some ("Loss: $" ++ ratStr (r.total_cost - r.total_revenue)) }

/-- `startsWith needle hay`: `needle` is an initial segment of `hay`. -/
def charsStartWith : List Char → List Char → Bool
  | [], _ => true
  | _ :: _, [] => false
  | a :: as, b :: bs => a == b && charsStartWith as bs

/-- Contiguous-subsequence test on character lists. -/
def charsContain (needle : List Char) : List Char → Bool
  | [] => needle.isEmpty
  | b :: bs => charsStartWith needle (b :: bs) || charsContain needle bs

/-- `Customer.plan.like('%legacy%')` on the default SQLite store: `LIKE` is
ASCII-case-insensitive containment; a NULL plan never matches. -/
def likeLegacy : Option String → Bool
  | none => false
  | some p => charsContain ("legacy".data) (p.data.map Char.toLower)

/-- Insight 3 count: customers whose plan matches `%legacy%`. -/
def legacyCount (st : DBState) : Nat :=
  (st.customers.filter (fun c => likeLegacy c.plan)).length

/-- The single WARNING flag content summarizing the legacy-plan count; it
carries no customer reference. -/
def legacyContent (n : Nat) : FlagContent :=
  { customer_id := none
    insight_type := InsightType.LEGACY_PLAN
    severity := SeverityType.WARNING
    category := "usage"
    title := "Legacy Plan Usage"
    message := toString n ++ " customer(s) on legacy plans"
    metric_value := some (toString n ++ " customers") }

/-- Insight 3: one flag when the count is positive, none otherwise. -/
def legacyContents (st : DBState) : List FlagContent :=
  if 0 < legacyCount st then [legacyContent (legacyCount st)] else []

/-- All flag contents derived by one `compute_insights` pass, in rule
order. -/
def newContents (now : ℚ) (st : DBState) : List FlagContent :=
  (highUsageLowRevenueRows st).map highContent
    ++ (unprofitableFeatureRows now st.daily_aggregates).map unprofContent
    ++ legacyContents st

/-- The deactivation sweep: every active flag is marked inactive with the
resolution timestamp set; inactive flags are untouched. -/
def deactivate (now : ℚ) (f : InsightFlag) : InsightFlag :=
  if f.is_active = 1 then { f with is_active := 0, resolved_at := some now }
  else f

/-- Insert-time bookkeeping around a rule-derived content: fresh row id,
`is_active = 1` (the explicit argument in the source), `created_at` set by
the column default at flush time, no resolution timestamp. -/
def mkFlag (i : Nat) (now : ℚ) (c : FlagContent) : InsightFlag :=
  { id := i
    customer_id := c.customer_id
    insight_type := c.insight_type
    severity := c.severity
    category := c.category
    title := c.title
    message := c.message
    metric_value := c.metric_value
    is_active := 1
    created_at := now
    resolved_at := none }

/-- Autoincrement id assignment for the freshly inserted flags. -/
def assignIds (base : Nat) (now : ℚ) : List FlagContent → List InsightFlag
  | [] => []
  | c :: cs => mkFlag (base + 1) now c :: assignIds (base + 1) now cs

/-- The largest flag id in use (0 on an empty table). -/
def maxFlagId (fs : List InsightFlag) : Nat :=
  fs.foldr (fun f m => max f.id m) 0

/-- `AggregationService.compute_insights()`: deactivate every active flag,
re-derive the complete active set from the current data, insert it, and
return the number of insights created.  `now` is the evaluation instant
(`datetime.utcnow()`). -/
def compute_insights (now : ℚ) (st : DBState) : Nat × DBState :=
  let old := st.insight_flags.map (deactivate now)
  let contents := newContents now st
  let fresh := assignIds (maxFlagId st.insight_flags) now contents
  (contents.length, { st with insight_flags := old ++ fresh })

/-! ### Dashboard Query Service -/

/-- Python `int()` applied to a float: truncation toward zero. -/
def truncInt (q : ℚ) : Int :=
  if 0 ≤ q then (Rat.floor q : ℤ) else -(Rat.floor (-q) : ℤ)

/-- One `time_series` entry of the dashboard response (the rendered date
string is abstracted to the date value). -/
structure TimeSeriesEntry where
  date : ℚ
  usage_cost : ℚ
  revenue : ℚ
  profit : ℚ
deriving DecidableEq

/-- One `feature_metrics` entry of the dashboard response. -/
structure FeatureMetric where
  feature_name : String
  usage_count : Int
  total_cost : ℚ
  revenue : ℚ
  profit_margin : ℚ
deriving DecidableEq

/-- The `summary` part of the dashboard response (the echoed date-range
strings are omitted). -/
structure DashboardSummary where
  total_usage_cost : ℚ
  total_revenue : ℚ
  total_profit : ℚ
  profit_margin_percentage : ℚ
deriving DecidableEq

/-- The full dashboard response shape. -/
structure DashboardData where
  summary : DashboardSummary
  time_series : List TimeSeriesEntry
  feature_metrics : List FeatureMetric
deriving DecidableEq

/-- Stable insertion sort used to embed SQL `ORDER BY` deterministically. -/
def insertOrdered (le : α → α → Bool) (a : α) : List α → List α
  | [] => [a]
  | b :: l => if le a b then a :: b :: l else b :: insertOrdered le a l

/-- Sort by the given should-stay-before relation. -/
def sortByB (le : α → α → Bool) (l : List α) : List α :=
  l.foldr (insertOrdered le) []

/-- Customer-scoped aggregate rows of the dashboard range
(`date >= start AND date <= end AND customer_id IS NOT NULL`). -/
def tsRows (start_dt end_dt : ℚ) (aggs : List DailyAggregate) : List DailyAggregate :=
  aggs.filter (fun a =>
    decide (start_dt ≤ a.date ∧ a.date ≤ end_dt ∧ a.customer_id ≠ none))

/-- Feature-scoped aggregate rows of the dashboard range
(`date >= start AND date <= end AND feature IS NOT NULL`). -/
def fmRows (start_dt end_dt : ℚ) (aggs : List DailyAggregate) : List DailyAggregate :=
  aggs.filter (fun a =>
    decide (start_dt ≤ a.date ∧ a.date ≤ end_dt ∧ a.feature ≠ none))

/-- `AggregationService.get_dashboard_data(start_date, end_date)`; the ISO
date parsing of the web layer is abstracted, the range endpoints arrive as
datetimes.  The time-series query also selects `sum(usage_total)`, but the
response shape never reads it, so it is not materialized here. -/
def get_dashboard_data (start_dt end_dt : ℚ) (st : DBState) : DashboardData :=
  let rows := tsRows start_dt end_dt st.daily_aggregates
  let dates := sortByB (fun x y => decide (x ≤ y)) ((rows.map (fun a => a.date)).dedup)
  let ts := dates.map (fun dt =>
    let ds := rows.filter (fun a => decide (a.date = dt))
    let cost := (ds.map (fun a => a.cost_total)).sum
    let rev := (ds.map (fun a => a.revenue_total)).sum
    { date := dt, usage_cost := cost, revenue := rev, profit := rev - cost })
  let frows := fmRows start_dt end_dt st.daily_aggregates
  let fms := ((frows.filterMap (fun a => a.feature)).dedup).map (fun f =>
    let fs := frows.filter (fun a => decide (a.feature = some f))
    let usage := (fs.map (fun a => a.usage_total)).sum
    let cost := (fs.map (fun a => a.cost_total)).sum
    let rev := (fs.map (fun a => a.revenue_total)).sum
    { feature_name := f
      usage_count := truncInt usage
      total_cost := cost
      revenue := rev
      profit_margin := (rev - cost) / (if rev = 0 then 1 else rev) * 100
      : FeatureMetric })
  let total_cost : ℚ := (ts.map (fun e => e.usage_cost)).sum
  let total_rev : ℚ := (ts.map (fun e => e.revenue)).sum
  let total_profit : ℚ := total_rev - total_cost
  let margin : ℚ := if 0 < total_rev then total_profit / total_rev * 100 else 0
  { summary :=
      { total_usage_cost := total_cost
        total_revenue := total_rev
        total_profit := total_profit
        profit_margin_percentage := margin }
    time_series := ts
    feature_metrics := fms }

/-! ### Active-insight retrieval (`get_active_insights`) -/

/-- Bytewise (SQLite BINARY collation) strict comparison of strings. -/
def charsLt : List Char → List Char → Bool
  | [], [] => false
  | [], _ :: _ => true
  | _ :: _, [] => false
  | a :: as, b :: bs => a < b || (a == b && charsLt as bs)

/-- `ORDER BY severity DESC, created_at DESC` as a should-stay-before
relation: the severity column holds the persisted enum NAMES, compared as
strings by the store. -/
def flagOrder (f g : InsightFlag) : Bool :=
  charsLt (severityName g.severity).data (severityName f.severity).data
    || ((severityName f.severity) == (severityName g.severity)
        && decide (g.created_at ≤ f.created_at))

/-- One record of the `get_active_insights` response; these six fields are
everything the endpoint returns. -/
structure InsightRecord where
  id : String
  type : String
  category : String
  title : String
  description : String
  metric : Option String
deriving DecidableEq

/-- The response record built from a stored flag: `type` is
`insight.severity.value`, `description` is the message, `metric` the
metric snapshot. -/
def recordOfFlag (f : InsightFlag) : InsightRecord :=
  { id := toString f.id
    type := severityValue f.severity
    category := f.category
    title := f.title
    description := f.message
    metric := f.metric_value }

/-- `AggregationService.get_active_insights()`. -/
def get_active_insights (st : DBState) : List InsightRecord :=
  (sortByB flagOrder (st.insight_flags.filter (fun f => f.is_active == 1))).map
    recordOfFlag

/-! ### Upsert lemmas

The materialization pass is a sequence of upserts whose keys are pairwise
exclusive (distinct customers, distinct features, and customer-scoped vs
feature-scoped rows can never coincide) and whose overwrites only touch
metric fields.  The lemmas below capture exactly that and yield
idempotence, the created-count characterization and per-row invariants. -/

/-- An upsert is well-formed: its fresh row matches its own key and already
carries the computed metrics, and its overwrite is idempotent and
key-transparent. -/
def GoodSpec (sp : UpsertSpec) : Prop :=
  sp.key sp.fresh = true ∧ sp.upd sp.fresh = sp.fresh
    ∧ (∀ a, sp.upd (sp.upd a) = sp.upd a)
    ∧ (∀ a, sp.key (sp.upd a) = sp.key a)

/-- Two upserts cannot interfere: no row matches both keys, each overwrite
is transparent to the other key, and each fresh row fails the other key. -/
def SpecsApart (sp sb : UpsertSpec) : Prop :=
  (∀ a, sp.key a = true → sb.key a = false)
    ∧ (∀ a, sp.key (sb.upd a) = sp.key a)
    ∧ (∀ a, sb.key (sp.upd a) = sb.key a)
    ∧ sp.key sb.fresh = false
    ∧ sb.key sp.fresh = false

theorem SpecsApart.symm {sp sb : UpsertSpec} (h : SpecsApart sp sb) :
    SpecsApart sb sp := by
  obtain ⟨h1, h2, h3, h4, h5⟩ := h
  refine ⟨fun a ha => ?_, h3, h2, h5, h4⟩
  cases hq : sp.key a with
  | false => rfl
  | true => rw [h1 a hq] at ha; cases ha

theorem bool_eq_false {b : Bool} (h : ¬ b = true) : b = false := by
  cases b
  · rfl
  · exact absurd rfl h

theorem upsertAgg_cons_pos (sp : UpsertSpec) (a : DailyAggregate)
    (l : List DailyAggregate) (h : sp.key a = true) :
    upsertAgg sp (a :: l) = (sp.upd a :: l, 0) := by
  simp [upsertAgg, h]

theorem upsertAgg_cons_neg (sp : UpsertSpec) (a : DailyAggregate)
    (l : List DailyAggregate) (h : sp.key a = false) :
    upsertAgg sp (a :: l) = (a :: (upsertAgg sp l).1, (upsertAgg sp l).2) := by
  simp [upsertAgg, h]

/-- A settled upsert: running it changes nothing and inserts nothing. -/
def Settled (sp : UpsertSpec) (l : List DailyAggregate) : Prop :=
  upsertAgg sp l = (l, 0)

theorem settled_of_upsert {sp : UpsertSpec} (hg : GoodSpec sp)
    (l : List DailyAggregate) : Settled sp (upsertAgg sp l).1 := by
  obtain ⟨hkf, huf, hui, hku⟩ := hg
  induction l with
  | nil => simp [Settled, upsertAgg, hkf, huf]
  | cons a l ih =>
    by_cases hk : sp.key a = true
    · rw [upsertAgg_cons_pos sp a l hk]
      show Settled sp (sp.upd a :: l)
      rw [Settled, upsertAgg_cons_pos sp _ l (by rw [hku a, hk]), hui a]
    · have hk2 : sp.key a = false := bool_eq_false hk
      rw [upsertAgg_cons_neg sp a l hk2]
      show Settled sp (a :: (upsertAgg sp l).1)
      rw [Settled, upsertAgg_cons_neg sp a _ hk2]
      rw [Settled] at ih
      simp [ih]

theorem settled_fst {sp : UpsertSpec} {l : List DailyAggregate}
    (h : Settled sp l) : (upsertAgg sp l).1 = l := by
  rw [Settled] at h; rw [h]

theorem settled_preserved {sp sb : UpsertSpec} (hap : SpecsApart sp sb)
    {l : List DailyAggregate} (h : Settled sp l) :
    Settled sp (upsertAgg sb l).1 := by
  obtain ⟨h1, h2, h3, h4, h5⟩ := hap
  induction l with
  | nil => simp [Settled, upsertAgg] at h
  | cons a l ih =>
    by_cases hk : sp.key a = true
    · have hupd : sp.upd a = a := by
        rw [Settled, upsertAgg_cons_pos sp a l hk] at h
        simp only [Prod.mk.injEq, List.cons.injEq] at h
        exact h.1.1
      rw [upsertAgg_cons_neg sb a l (h1 a hk)]
      rw [Settled, upsertAgg_cons_pos sp a _ hk, hupd]
    · have hk2 : sp.key a = false := bool_eq_false hk
      have htail : Settled sp l := by
        rw [Settled, upsertAgg_cons_neg sp a l hk2] at h
        simp only [Prod.mk.injEq, List.cons.injEq] at h
        rw [Settled]
        calc upsertAgg sp l = ((upsertAgg sp l).1, (upsertAgg sp l).2) := rfl
          _ = (l, 0) := by rw [h.1.2, h.2]
      by_cases hq : sb.key a = true
      · rw [upsertAgg_cons_pos sb a l hq]
        rw [Settled, upsertAgg_cons_neg sp _ l (by rw [h2 a]; exact hk2)]
        rw [Settled] at htail
        simp [htail]
      · rw [upsertAgg_cons_neg sb a l (bool_eq_false hq)]
        rw [Settled, upsertAgg_cons_neg sp a _ hk2]
        have hrec := ih htail
        rw [Settled] at hrec
        simp [hrec]

theorem settled_run_preserved {sp : UpsertSpec} {sps : List UpsertSpec}
    (l : List DailyAggregate) (hap : ∀ sb ∈ sps, SpecsApart sp sb)
    (h : Settled sp l) : Settled sp (runUpserts sps l).1 := by
  induction sps generalizing l with
  | nil => simpa [runUpserts] using h
  | cons sb sps ih =>
    simp only [runUpserts]
    exact ih _ (fun x hx => hap x (List.mem_cons_of_mem _ hx))
      (settled_preserved (hap sb (List.mem_cons_self _ _)) h)

theorem run_noop {sps : List UpsertSpec} (l : List DailyAggregate)
    (h : ∀ sp ∈ sps, Settled sp l) : runUpserts sps l = (l, 0) := by
  induction sps with
  | nil => rfl
  | cons sp sps ih =>
    have h0 : upsertAgg sp l = (l, 0) := h sp (List.mem_cons_self _ _)
    simp only [runUpserts, h0]
    simp [ih fun x hx => h x (List.mem_cons_of_mem _ hx)]

theorem run_settles {sps : List UpsertSpec} (l : List DailyAggregate)
    (hg : ∀ sp ∈ sps, GoodSpec sp) (hp : List.Pairwise SpecsApart sps) :
    ∀ sp ∈ sps, Settled sp (runUpserts sps l).1 := by
  induction sps generalizing l with
  | nil => intro sp h; cases h
  | cons sb sps ih =>
    intro sp hsp
    rcases List.mem_cons.mp hsp with rfl | hmem
    · simp only [runUpserts]
      exact settled_run_preserved _ (fun x hx => List.rel_of_pairwise_cons hp hx)
        (settled_of_upsert (hg sp (List.mem_cons_self _ _)) l)
    · simp only [runUpserts]
      exact ih _ (fun x hx => hg x (List.mem_cons_of_mem _ hx)) hp.of_cons sp hmem

theorem run_idem {sps : List UpsertSpec} (l : List DailyAggregate)
    (hg : ∀ sp ∈ sps, GoodSpec sp) (hp : List.Pairwise SpecsApart sps) :
    runUpserts sps (runUpserts sps l).1 = ((runUpserts sps l).1, 0) :=
  run_noop _ (run_settles l hg hp)

theorem upsert_snd (sp : UpsertSpec) (l : List DailyAggregate) :
    (upsertAgg sp l).2 = if l.any sp.key then 0 else 1 := by
  induction l with
  | nil => simp [upsertAgg]
  | cons a l ih =>
    by_cases hk : sp.key a = true
    · simp [upsertAgg_cons_pos sp a l hk, List.any_cons, hk]
    · have hk2 : sp.key a = false := bool_eq_false hk
      simp [upsertAgg_cons_neg sp a l hk2, List.any_cons, hk2, ih]

theorem any_key_upsert {sp sb : UpsertSpec} (hap : SpecsApart sp sb)
    (l : List DailyAggregate) :
    ((upsertAgg sb l).1.any sp.key) = l.any sp.key := by
  obtain ⟨h1, h2, h3, h4, h5⟩ := hap
  induction l with
  | nil => simp [upsertAgg, h4]
  | cons a l ih =>
    by_cases hq : sb.key a = true
    · simp [upsertAgg_cons_pos sb a l hq, List.any_cons, h2 a]
    · simp [upsertAgg_cons_neg sb a l (bool_eq_false hq), List.any_cons, ih]

theorem run_count {sps : List UpsertSpec} (l : List DailyAggregate)
    (hp : List.Pairwise SpecsApart sps) :
    (runUpserts sps l).2 = (sps.filter (fun sp => ! l.any sp.key)).length := by
  induction sps generalizing l with
  | nil => rfl
  | cons sp sps ih =>
    have hfix : ∀ sb ∈ sps, ((upsertAgg sp l).1.any sb.key) = l.any sb.key :=
      fun sb hsb => any_key_upsert (List.rel_of_pairwise_cons hp hsb).symm l
    have hrec := ih (upsertAgg sp l).1 hp.of_cons
    rw [List.filter_congr (fun sb hsb => by rw [hfix sb hsb])] at hrec
    by_cases hk : l.any sp.key = true
    · simp only [runUpserts]
      rw [hrec, upsert_snd, hk, if_pos rfl]
      simp [List.filter_cons, hk]
    · have hk2 : l.any sp.key = false := bool_eq_false hk
      simp only [runUpserts]
      rw [hrec, upsert_snd, hk2]
      simp [List.filter_cons, hk2, Nat.add_comm]

theorem upsert_forall {Q : DailyAggregate → Prop} {sp : UpsertSpec}
    (hu : ∀ a, sp.key a = true → Q a → Q (sp.upd a)) (hf : Q sp.fresh)
    {l : List DailyAggregate} (hl : ∀ a ∈ l, Q a) :
    ∀ b ∈ (upsertAgg sp l).1, Q b := by
  induction l with
  | nil =>
    intro b hb
    simp only [upsertAgg, List.mem_singleton] at hb
    rw [hb]; exact hf
  | cons a l ih =>
    intro b hb
    by_cases hk : sp.key a = true
    · rw [upsertAgg_cons_pos sp a l hk] at hb
      rcases List.mem_cons.mp hb with rfl | hmem
      · exact hu a hk (hl a (List.mem_cons_self _ _))
      · exact hl b (List.mem_cons_of_mem _ hmem)
    · rw [upsertAgg_cons_neg sp a l (bool_eq_false hk)] at hb
      rcases List.mem_cons.mp hb with rfl | hmem
      · exact hl b (List.mem_cons_self _ _)
      · exact ih (fun x hx => hl x (List.mem_cons_of_mem _ hx)) b hmem

theorem run_forall {Q : DailyAggregate → Prop} {sps : List UpsertSpec}
    (hs : ∀ sp ∈ sps, (∀ a, sp.key a = true → Q a → Q (sp.upd a)) ∧ Q sp.fresh)
    {l : List DailyAggregate} (hl : ∀ a ∈ l, Q a) :
    ∀ b ∈ (runUpserts sps l).1, Q b := by
  induction sps generalizing l with
  | nil => exact hl
  | cons sp sps ih =>
    intro b hb
    simp only [runUpserts] at hb
    refine ih (fun x hx => hs x (List.mem_cons_of_mem _ hx)) ?_ b hb
    exact upsert_forall (hs sp (List.mem_cons_self _ _)).1
      (hs sp (List.mem_cons_self _ _)).2 hl

theorem settled_exists {sp : UpsertSpec} {l : List DailyAggregate}
    (h : Settled sp l) : ∃ a ∈ l, sp.key a = true ∧ sp.upd a = a := by
  induction l with
  | nil => simp [Settled, upsertAgg] at h
  | cons a l ih =>
    by_cases hk : sp.key a = true
    · have hupd : sp.upd a = a := by
        rw [Settled, upsertAgg_cons_pos sp a l hk] at h
        simp only [Prod.mk.injEq, List.cons.injEq] at h
        exact h.1.1
      exact ⟨a, List.mem_cons_self _ _, hk, hupd⟩
    · have hk2 : sp.key a = false := bool_eq_false hk
      have htail : Settled sp l := by
        rw [Settled, upsertAgg_cons_neg sp a l hk2] at h
        simp only [Prod.mk.injEq, List.cons.injEq] at h
        rw [Settled]
        calc upsertAgg sp l = ((upsertAgg sp l).1, (upsertAgg sp l).2) := rfl
          _ = (l, 0) := by rw [h.1.2, h.2]
      obtain ⟨a0, hmem, hkey, hupd⟩ := ih htail
      exact ⟨a0, List.mem_cons_of_mem _ hmem, hkey, hupd⟩

/-! ### The materialization upserts are well-formed and pairwise apart -/

theorem goodSpec_cust (s : ℚ) (st : DBState) (cid : Nat) :
    GoodSpec (custSpec s st cid) := by
  refine ⟨?_, rfl, fun a => rfl, fun a => rfl⟩
  simp [custSpec, custKey, custFresh]

theorem goodSpec_feat (s : ℚ) (st : DBState) (f : String) :
    GoodSpec (featSpec s st f) := by
  refine ⟨?_, rfl, fun a => rfl, fun a => rfl⟩
  simp [featSpec, featKey, featFresh]

theorem apart_cust_cust (s : ℚ) (st : DBState) {c1 c2 : Nat} (h : c1 ≠ c2) :
    SpecsApart (custSpec s st c1) (custSpec s st c2) := by
  refine ⟨fun a ha => ?_, fun a => rfl, fun a => rfl, ?_, ?_⟩
  · simp only [custSpec, custKey, decide_eq_true_eq] at ha
    simp only [custSpec, custKey, decide_eq_false_iff_not]
    rintro ⟨-, hc, -⟩
    rw [ha.2.1] at hc
    exact h (Option.some.inj hc)
  · simp only [custSpec, custKey, custFresh, decide_eq_false_iff_not]
    rintro ⟨-, hc, -⟩
    exact h (Option.some.inj hc).symm
  · simp only [custSpec, custKey, custFresh, decide_eq_false_iff_not]
    rintro ⟨-, hc, -⟩
    exact h (Option.some.inj hc)

theorem apart_cust_feat (s : ℚ) (st : DBState) (cid : Nat) (f : String) :
    SpecsApart (custSpec s st cid) (featSpec s st f) := by
  refine ⟨fun a ha => ?_, fun a => rfl, fun a => rfl, ?_, ?_⟩
  · simp only [custSpec, custKey, decide_eq_true_eq] at ha
    simp only [featSpec, featKey, decide_eq_false_iff_not]
    rintro ⟨-, hc, -⟩
    rw [ha.2.1] at hc
    cases hc
  · simp [custSpec, custKey, featSpec, featFresh]
  · simp [featSpec, featKey, custSpec, custFresh]

theorem apart_feat_feat (s : ℚ) (st : DBState) {f1 f2 : String} (h : f1 ≠ f2) :
    SpecsApart (featSpec s st f1) (featSpec s st f2) := by
  refine ⟨fun a ha => ?_, fun a => rfl, fun a => rfl, ?_, ?_⟩
  · simp only [featSpec, featKey, decide_eq_true_eq] at ha
    simp only [featSpec, featKey, decide_eq_false_iff_not]
    rintro ⟨-, -, hc⟩
    rw [ha.2.2] at hc
    exact h (Option.some.inj hc)
  · simp only [featSpec, featKey, featFresh, decide_eq_false_iff_not]
    rintro ⟨-, -, hc⟩
    exact h (Option.some.inj hc).symm
  · simp only [featSpec, featKey, featFresh, decide_eq_false_iff_not]
    rintro ⟨-, -, hc⟩
    exact h (Option.some.inj hc)

theorem goodAll_materializeSpecs (s : ℚ) (st : DBState) :
    ∀ sp ∈ materializeSpecs s st, GoodSpec sp := by
  intro sp hsp
  rw [materializeSpecs] at hsp
  rcases List.mem_append.mp hsp with hc | hf
  · obtain ⟨cid, -, rfl⟩ := List.mem_map.mp hc
    exact goodSpec_cust s st cid
  · obtain ⟨f, -, rfl⟩ := List.mem_map.mp hf
    exact goodSpec_feat s st f

theorem pairwise_materializeSpecs (s : ℚ) (st : DBState) :
    List.Pairwise SpecsApart (materializeSpecs s st) := by
  rw [materializeSpecs, List.pairwise_append]
  refine ⟨?_, ?_, ?_⟩
  · exact List.Pairwise.map _ (fun a b hab => apart_cust_cust s st hab)
      (List.nodup_dedup _)
  · exact List.Pairwise.map _ (fun a b hab => apart_feat_feat s st hab)
      (List.nodup_dedup _)
  · intro sp hsp sb hsb
    obtain ⟨cid, -, rfl⟩ := List.mem_map.mp hsp
    obtain ⟨f, -, rfl⟩ := List.mem_map.mp hsb
    exact apart_cust_feat s st cid f

/-! ### The pass depends only on the event tables -/

theorem windowUsage_congr (s : ℚ) {st st2 : DBState}
    (hu : st2.usage_events = st.usage_events) :
    windowUsage s st2 = windowUsage s st := by
  rw [windowUsage, windowUsage, hu]

theorem custSpec_congr (s : ℚ) {st st2 : DBState}
    (hwin : windowUsage s st2 = windowUsage s st)
    (hr : st2.revenue_events = st.revenue_events) (cid : Nat) :
    custSpec s st2 cid = custSpec s st cid := by
  have hw : custWinEvents s st2 cid = custWinEvents s st cid := by
    rw [custWinEvents, custWinEvents, hwin]
  have h1 : custUsageTotal s st2 cid = custUsageTotal s st cid := by
    rw [custUsageTotal, custUsageTotal, hw]
  have h2 : custUsageCount s st2 cid = custUsageCount s st cid := by
    rw [custUsageCount, custUsageCount, hw]
  have h3 : custCostTotal s st2 cid = custCostTotal s st cid := by
    rw [custCostTotal, custCostTotal, hw]
  have h4 : custRevenue s st2 cid = custRevenue s st cid := by
    rw [custRevenue, custRevenue, hr]
  rw [custSpec, custSpec]
  have hupd : custUpd s st2 cid = custUpd s st cid := by
    funext a
    rw [custUpd, custUpd, h1, h2, h3, h4]
  have hfresh : custFresh s st2 cid = custFresh s st cid := by
    rw [custFresh, custFresh, h1, h2, h3, h4]
  rw [hupd, hfresh]

theorem featSpec_congr (s : ℚ) {st st2 : DBState}
    (hwin : windowUsage s st2 = windowUsage s st) (f : String) :
    featSpec s st2 f = featSpec s st f := by
  have hw : featWinEvents s st2 f = featWinEvents s st f := by
    rw [featWinEvents, featWinEvents, hwin]
  have h1 : featUsageTotal s st2 f = featUsageTotal s st f := by
    rw [featUsageTotal, featUsageTotal, hw]
  have h2 : featUsageCount s st2 f = featUsageCount s st f := by
    rw [featUsageCount, featUsageCount, hw]
  have h3 : featCostTotal s st2 f = featCostTotal s st f := by
    rw [featCostTotal, featCostTotal, hw]
  rw [featSpec, featSpec]
  have hupd : featUpd s st2 f = featUpd s st f := by
    funext a
    rw [featUpd, featUpd, h1, h2, h3]
  have hfresh : featFresh s st2 f = featFresh s st f := by
    rw [featFresh, featFresh, h1, h2, h3]
  rw [hupd, hfresh]

theorem materializeSpecs_congr (s : ℚ) {st st2 : DBState}
    (hwin : windowUsage s st2 = windowUsage s st)
    (hr : st2.revenue_events = st.revenue_events) :
    materializeSpecs s st2 = materializeSpecs s st := by
  have hc : custSpec s st2 = custSpec s st := funext (custSpec_congr s hwin hr)
  have hf : featSpec s st2 = featSpec s st := funext (featSpec_congr s hwin)
  rw [materializeSpecs, materializeSpecs, hwin, hc, hf]

/-! ### Claim theorems -/

theorem materialize_usage_events (d : ℚ) (st : DBState) :
    (materialize_daily_aggregates d st).2.usage_events = st.usage_events := rfl

theorem materialize_revenue_events (d : ℚ) (st : DBState) :
    (materialize_daily_aggregates d st).2.revenue_events = st.revenue_events := rfl

theorem dbstate_update_self (st : DBState) (l : List DailyAggregate)
    (h : st.daily_aggregates = l) :
    ({ st with daily_aggregates := l } : DBState) = st := by
  rw [← h]

/-- C3: re-running `materialize_daily_aggregates` on the same date with the
underlying `UsageEvent` and `RevenueEvent` rows unchanged (the first run
only writes `daily_aggregates`) changes no `DailyAggregate` row, creates no
row, and returns a created-count of 0. -/
theorem c3_materialize_idempotent (d : ℚ) (st : DBState) :
    (materialize_daily_aggregates d (materialize_daily_aggregates d st).2).1 = 0
      ∧ (materialize_daily_aggregates d (materialize_daily_aggregates d st).2).2
        = (materialize_daily_aggregates d st).2 := by
  have hspecs : materializeSpecs (startOfDay d) (materialize_daily_aggregates d st).2
      = materializeSpecs (startOfDay d) st :=
    materializeSpecs_congr _ (windowUsage_congr _ rfl) rfl
  have hidem := run_idem st.daily_aggregates
    (goodAll_materializeSpecs (startOfDay d) st)
    (pairwise_materializeSpecs (startOfDay d) st)
  have h1 : (runUpserts (materializeSpecs (startOfDay d) st)
      (materialize_daily_aggregates d st).2.daily_aggregates).1
      = (materialize_daily_aggregates d st).2.daily_aggregates := by
    show (runUpserts (materializeSpecs (startOfDay d) st)
        (runUpserts (materializeSpecs (startOfDay d) st) st.daily_aggregates).1).1
      = (runUpserts (materializeSpecs (startOfDay d) st) st.daily_aggregates).1
    rw [hidem]
  have h2 : (runUpserts (materializeSpecs (startOfDay d) st)
      (materialize_daily_aggregates d st).2.daily_aggregates).2 = 0 := by
    show (runUpserts (materializeSpecs (startOfDay d) st)
        (runUpserts (materializeSpecs (startOfDay d) st) st.daily_aggregates).1).2 = 0
    rw [hidem]
  constructor
  · show (runUpserts
        (materializeSpecs (startOfDay d) (materialize_daily_aggregates d st).2)
        (materialize_daily_aggregates d st).2.daily_aggregates).2 = 0
    rw [hspecs, h2]
  · show ({ (materialize_daily_aggregates d st).2 with daily_aggregates :=
        (runUpserts
          (materializeSpecs (startOfDay d) (materialize_daily_aggregates d st).2)
          (materialize_daily_aggregates d st).2.daily_aggregates).1 } : DBState)
      = (materialize_daily_aggregates d st).2
    rw [hspecs]
    exact dbstate_update_self _ _ h1.symm

def c3St : DBState :=
  { customers := [⟨1, "cust-1", "Acme", some "pro"⟩]
    usage_events := [⟨1, 1, "api", 5, 2, 1/2⟩, ⟨2, 1, "export", 3, 1, 1/4⟩]
    revenue_events := [⟨1, 1, 40, 1/2⟩]
    daily_aggregates := []
    insight_flags := [] }

theorem c3_materialize_idempotent_witness :
    (materialize_daily_aggregates 0 (materialize_daily_aggregates 0 c3St).2).1 = 0
      ∧ (materialize_daily_aggregates 0 (materialize_daily_aggregates 0 c3St).2).2
        = (materialize_daily_aggregates 0 c3St).2 :=
  c3_materialize_idempotent 0 c3St

theorem startOfDay_zero : startOfDay 0 = 0 := by decide

/-- C7: the materialization contract.  (i) Events outside the half-open day
window `[date@00:00, date+1@00:00)` do not influence the result; (ii) a day
with no usage events returns 0 and leaves the whole store untouched;
(iii) a customer with window usage but no window revenue gets a
customer-scoped row with `revenue_total = 0` rather than being skipped;
(iv) the returned count is exactly the number of group keys with no
pre-existing aggregate row (overwrites are not counted). -/
theorem c7_materialize_window_contract (d : ℚ) (st : DBState) :
    (∀ e : UsageEvent, inDayWindow (startOfDay d) e.timestamp = false →
      (materialize_daily_aggregates d
          { st with usage_events := st.usage_events ++ [e] }).1
        = (materialize_daily_aggregates d st).1
      ∧ (materialize_daily_aggregates d
          { st with usage_events := st.usage_events ++ [e] }).2.daily_aggregates
        = (materialize_daily_aggregates d st).2.daily_aggregates)
    ∧ (windowUsage (startOfDay d) st = [] →
        materialize_daily_aggregates d st = (0, st))
    ∧ (∀ cid ∈ (windowUsage (startOfDay d) st).map (fun e => e.customer_id),
        (st.revenue_events.filter (fun r =>
            decide (r.customer_id = cid)
              && inDayWindow (startOfDay d) r.timestamp)) = [] →
        ∃ a ∈ (materialize_daily_aggregates d st).2.daily_aggregates,
          custKey (startOfDay d) cid a = true ∧ a.revenue_total = 0)
    ∧ (materialize_daily_aggregates d st).1
      = ((materializeSpecs (startOfDay d) st).filter
          (fun sp => ! st.daily_aggregates.any sp.key)).length := by
  refine ⟨?_, ?_, ?_, ?_⟩
  · intro e he
    have hw : windowUsage (startOfDay d)
        { st with usage_events := st.usage_events ++ [e] }
        = windowUsage (startOfDay d) st := by
      show (st.usage_events ++ [e]).filter
          (fun x => inDayWindow (startOfDay d) x.timestamp)
        = st.usage_events.filter (fun x => inDayWindow (startOfDay d) x.timestamp)
      rw [List.filter_append]
      simp [List.filter_cons, he]
    have hspecs := materializeSpecs_congr (startOfDay d) hw rfl
    constructor
    · show (runUpserts (materializeSpecs (startOfDay d)
          { st with usage_events := st.usage_events ++ [e] })
          st.daily_aggregates).2
        = (runUpserts (materializeSpecs (startOfDay d) st) st.daily_aggregates).2
      rw [hspecs]
    · show (runUpserts (materializeSpecs (startOfDay d)
          { st with usage_events := st.usage_events ++ [e] })
          st.daily_aggregates).1
        = (runUpserts (materializeSpecs (startOfDay d) st) st.daily_aggregates).1
      rw [hspecs]
  · intro h
    have hsp : materializeSpecs (startOfDay d) st = [] := by
      rw [materializeSpecs, h]
      rfl
    have hrun : runUpserts (materializeSpecs (startOfDay d) st) st.daily_aggregates
        = (st.daily_aggregates, 0) := by
      rw [hsp]
      rfl
    show ((runUpserts (materializeSpecs (startOfDay d) st) st.daily_aggregates).2,
        ({ st with daily_aggregates :=
          (runUpserts (materializeSpecs (startOfDay d) st)
            st.daily_aggregates).1 } : DBState))
      = (0, st)
    rw [hrun, dbstate_update_self st st.daily_aggregates rfl]
  · intro cid hcid hrev
    have hmem : custSpec (startOfDay d) st cid ∈ materializeSpecs (startOfDay d) st := by
      rw [materializeSpecs]
      exact List.mem_append_left _
        (List.mem_map_of_mem _ (List.mem_dedup.mpr hcid))
    have hsettled := run_settles st.daily_aggregates
      (goodAll_materializeSpecs (startOfDay d) st)
      (pairwise_materializeSpecs (startOfDay d) st) _ hmem
    obtain ⟨a, hamem, hkey, hupd⟩ := settled_exists hsettled
    refine ⟨a, hamem, hkey, ?_⟩
    have h5 := congrArg DailyAggregate.revenue_total hupd
    have h6 : custRevenue (startOfDay d) st cid = 0 := by
      rw [custRevenue, hrev]
      rfl
    rw [← h5]
    exact h6
  · exact run_count st.daily_aggregates (pairwise_materializeSpecs (startOfDay d) st)

def c7St : DBState :=
  { customers := []
    usage_events := [⟨1, 7, "api", 10, 1, 1/4⟩]
    revenue_events := [⟨1, 7, 99, 3/2⟩]
    daily_aggregates := []
    insight_flags := [] }

def c7Out : UsageEvent := ⟨9, 7, "api", 100, 1, 5⟩

def c7Empty : DBState :=
  { customers := []
    usage_events := []
    revenue_events := []
    daily_aggregates := [⟨0, some 1, none, 1, 1, 1, 1⟩]
    insight_flags := [] }

theorem c7_materialize_window_contract_witness :
    ((materialize_daily_aggregates 0
        { c7St with usage_events := c7St.usage_events ++ [c7Out] }).1
      = (materialize_daily_aggregates 0 c7St).1
      ∧ (materialize_daily_aggregates 0
          { c7St with usage_events := c7St.usage_events ++ [c7Out] }).2.daily_aggregates
        = (materialize_daily_aggregates 0 c7St).2.daily_aggregates)
    ∧ materialize_daily_aggregates 0 c7Empty = (0, c7Empty)
    ∧ (∃ a ∈ (materialize_daily_aggregates 0 c7St).2.daily_aggregates,
        custKey (startOfDay 0) 7 a = true ∧ a.revenue_total = 0) :=
  ⟨(c7_materialize_window_contract 0 c7St).1 c7Out
      (by norm_num [inDayWindow, startOfDay_zero, c7Out]),
   (c7_materialize_window_contract 0 c7Empty).2.1 (by rfl),
   (c7_materialize_window_contract 0 c7St).2.2.1 7
      (by norm_num [windowUsage, inDayWindow, startOfDay_zero, c7St])
      (by norm_num [inDayWindow, startOfDay_zero, c7St])⟩

/-- C8: the materialization pass never writes `revenue_total` on a
feature-scoped row: the feature overwrite replaces only the three usage/cost
metrics, a freshly inserted feature row carries the column default 0.0, and
hence every row with `customer_id` null in the result either has
`revenue_total = 0` (new) or inherits `revenue_total` unchanged from a
pre-existing row with the same date and feature. -/
theorem c8_feature_revenue_frame (d : ℚ) (st : DBState) :
    (∀ (f : String) (a : DailyAggregate),
      ((featSpec (startOfDay d) st f).upd a).revenue_total = a.revenue_total)
    ∧ (∀ f : String, ((featSpec (startOfDay d) st f).fresh).revenue_total = 0)
    ∧ ∀ a ∈ (materialize_daily_aggregates d st).2.daily_aggregates,
        a.customer_id = none →
        a.revenue_total = 0
          ∨ ∃ b ∈ st.daily_aggregates, b.customer_id = none
              ∧ b.feature = a.feature ∧ b.date = a.date
              ∧ b.revenue_total = a.revenue_total := by
  refine ⟨fun f a => rfl, fun f => rfl, ?_⟩
  have hQ : ∀ b ∈ (runUpserts (materializeSpecs (startOfDay d) st)
      st.daily_aggregates).1,
      (b.customer_id = none →
        b.revenue_total = 0
          ∨ ∃ c ∈ st.daily_aggregates, c.customer_id = none
              ∧ c.feature = b.feature ∧ c.date = b.date
              ∧ c.revenue_total = b.revenue_total) := by
    refine run_forall ?_ ?_
    · intro sp hsp
      rw [materializeSpecs] at hsp
      rcases List.mem_append.mp hsp with hc | hf
      · obtain ⟨cid, -, rfl⟩ := List.mem_map.mp hc
        constructor
        · intro a hkey _ hnone
          exfalso
          simp only [custSpec, custKey, decide_eq_true_eq] at hkey
          have hcn : a.customer_id = none := hnone
          rw [hkey.2.1] at hcn
          cases hcn
        · intro hnone
          exfalso
          simp only [custSpec, custFresh] at hnone
          cases hnone
      · obtain ⟨f, -, rfl⟩ := List.mem_map.mp hf
        constructor
        · intro a _ hQa hnone
          rcases hQa hnone with h0 | ⟨c, hc, h1, h2, h3, h4⟩
          · exact Or.inl h0
          · exact Or.inr ⟨c, hc, h1, h2, h3, h4⟩
        · intro _
          exact Or.inl rfl
    · intro a ha hnone
      exact Or.inr ⟨a, ha, hnone, rfl, rfl, rfl⟩
  exact hQ

def c8St : DBState :=
  { customers := []
    usage_events := [⟨1, 4, "api", 10, 2, 1/2⟩]
    revenue_events := []
    daily_aggregates := [⟨0, none, some "api", 1, 1, 7, 3⟩]
    insight_flags := [] }

theorem c8_feature_revenue_frame_witness :
    ((⟨0, none, some "api", 10, 1, 7, 20⟩ : DailyAggregate).revenue_total = 0
      ∨ ∃ b ∈ c8St.daily_aggregates, b.customer_id = none
          ∧ b.feature = (⟨0, none, some "api", 10, 1, 7, 20⟩ : DailyAggregate).feature
          ∧ b.date = (⟨0, none, some "api", 10, 1, 7, 20⟩ : DailyAggregate).date
          ∧ b.revenue_total
            = (⟨0, none, some "api", 10, 1, 7, 20⟩ : DailyAggregate).revenue_total) :=
  (c8_feature_revenue_frame 0 c8St).2.2 ⟨0, none, some "api", 10, 1, 7, 20⟩
    (by norm_num [materialize_daily_aggregates, materializeSpecs, startOfDay_zero,
      windowUsage, inDayWindow, c8St, custSpec, custKey, custUpd, custFresh,
      custWinEvents, custUsageTotal, custUsageCount, custCostTotal, custRevenue,
      featSpec, featKey, featUpd, featFresh, featWinEvents, featUsageTotal,
      featUsageCount, featCostTotal, runUpserts, upsertAgg, List.dedup])
    rfl

/-! ### Insight-engine lemmas -/

theorem deactivate_filter (now : ℚ) (fs : List InsightFlag) :
    (fs.map (deactivate now)).filter (fun f => f.is_active == 1) = [] := by
  rw [List.filter_eq_nil_iff]
  intro f hf
  obtain ⟨g, -, rfl⟩ := List.mem_map.mp hf
  by_cases h : g.is_active = 1 <;> simp [deactivate, h]

theorem assignIds_filter (b : Nat) (now : ℚ) (l : List FlagContent) :
    (assignIds b now l).filter (fun f => f.is_active == 1) = assignIds b now l := by
  induction l generalizing b with
  | nil => rfl
  | cons c cs ih =>
    show ((mkFlag (b + 1) now c :: assignIds (b + 1) now cs).filter
        (fun f => f.is_active == 1)) = _
    rw [List.filter_cons_of_pos (by rfl), ih]
    rfl

theorem assignIds_content (b : Nat) (now : ℚ) (l : List FlagContent) :
    (assignIds b now l).map InsightFlag.content = l := by
  induction l generalizing b with
  | nil => rfl
  | cons c cs ih =>
    show InsightFlag.content (mkFlag (b + 1) now c) :: _ = c :: cs
    rw [ih]
    rfl

theorem assignIds_filter_content (b : Nat) (now : ℚ) (l : List FlagContent)
    (p : FlagContent → Bool) :
    ((assignIds b now l).filter (fun f => p f.content)).map InsightFlag.content
      = l.filter p := by
  induction l generalizing b with
  | nil => rfl
  | cons c cs ih =>
    show ((mkFlag (b + 1) now c :: assignIds (b + 1) now cs).filter
        (fun f => p f.content)).map InsightFlag.content = (c :: cs).filter p
    by_cases h : p c = true
    · rw [List.filter_cons_of_pos (by exact h), List.filter_cons_of_pos h]
      show InsightFlag.content (mkFlag (b + 1) now c) :: _ = c :: _
      rw [ih]
      rfl
    · rw [List.filter_cons_of_neg (by exact h), List.filter_cons_of_neg h]
      exact ih (b + 1)

theorem active_after_compute (now : ℚ) (st : DBState) :
    (compute_insights now st).2.insight_flags.filter (fun f => f.is_active == 1)
      = assignIds (maxFlagId st.insight_flags) now (newContents now st) := by
  show ((st.insight_flags.map (deactivate now)
      ++ assignIds (maxFlagId st.insight_flags) now (newContents now st)).filter
      (fun f => f.is_active == 1)) = _
  rw [List.filter_append, deactivate_filter, assignIds_filter, List.nil_append]

theorem newContents_congr {st st2 : DBState}
    (h1 : st2.customers = st.customers)
    (h2 : st2.usage_events = st.usage_events)
    (h3 : st2.revenue_events = st.revenue_events)
    (h4 : st2.daily_aggregates = st.daily_aggregates) (now : ℚ) :
    newContents now st2 = newContents now st := by
  have hh : highUsageLowRevenueRows st2 = highUsageLowRevenueRows st := by
    have hu : custAllUsage st2 = custAllUsage st :=
      funext fun cid => by rw [custAllUsage, custAllUsage, h2]
    have hr : custAllRevenue st2 = custAllRevenue st :=
      funext fun cid => by rw [custAllRevenue, custAllRevenue, h3]
    rw [highUsageLowRevenueRows, highUsageLowRevenueRows, h1, hu, hr]
  have hlc : legacyContents st2 = legacyContents st := by
    rw [legacyContents, legacyContents, legacyCount, legacyCount, h1]
  rw [newContents, newContents, hh, h4, hlc]

/-- C5: `compute_insights` is a full refresh: after a call the active rows
are exactly the freshly derived flags; every previously active row is
re-inserted deactivated with the resolution timestamp set; and a second
call over the unchanged underlying data (the call writes only
`insight_flags`) returns the same count and reproduces the same active set
by content, deactivating the prior one. -/
theorem c5_full_refresh (now : ℚ) (st : DBState) :
    (((compute_insights now st).2.insight_flags.filter
        (fun f => f.is_active == 1)).map InsightFlag.content = newContents now st)
    ∧ (∀ f ∈ st.insight_flags, f.is_active = 1 →
        ({ f with is_active := 0, resolved_at := some now } : InsightFlag)
          ∈ (compute_insights now st).2.insight_flags)
    ∧ (compute_insights now (compute_insights now st).2).1
        = (compute_insights now st).1
    ∧ (((compute_insights now (compute_insights now st).2).2.insight_flags.filter
          (fun f => f.is_active == 1)).map InsightFlag.content
        = ((compute_insights now st).2.insight_flags.filter
          (fun f => f.is_active == 1)).map InsightFlag.content)
    ∧ (∀ f ∈ (compute_insights now st).2.insight_flags, f.is_active = 1 →
        ({ f with is_active := 0, resolved_at := some now } : InsightFlag)
          ∈ (compute_insights now (compute_insights now st).2).2.insight_flags) := by
  have hactive : ∀ stx : DBState,
      ((compute_insights now stx).2.insight_flags.filter
        (fun f => f.is_active == 1)).map InsightFlag.content = newContents now stx :=
    fun stx => by rw [active_after_compute]; exact assignIds_content _ _ _
  have hdeact : ∀ stx : DBState, ∀ f ∈ stx.insight_flags, f.is_active = 1 →
      ({ f with is_active := 0, resolved_at := some now } : InsightFlag)
        ∈ (compute_insights now stx).2.insight_flags := by
    intro stx f hf h1
    show _ ∈ stx.insight_flags.map (deactivate now) ++ _
    apply List.mem_append_left
    have : deactivate now f = { f with is_active := 0, resolved_at := some now } := by
      rw [deactivate, if_pos h1]
    rw [← this]
    exact List.mem_map_of_mem _ hf
  have hnc : newContents now (compute_insights now st).2 = newContents now st :=
    newContents_congr rfl rfl rfl rfl now
  refine ⟨hactive st, hdeact st, ?_, ?_, hdeact _⟩
  · show (newContents now (compute_insights now st).2).length
      = (newContents now st).length
    rw [hnc]
  · rw [hactive st, hactive (compute_insights now st).2, hnc]

def c5OldFlag : InsightFlag :=
  ⟨3, none, InsightType.LEGACY_PLAN, SeverityType.WARNING, "usage", "t", "m",
    none, 1, 0, none⟩

def c5St : DBState :=
  { customers := [⟨1, "e", "A", some "legacy-v1"⟩]
    usage_events := []
    revenue_events := []
    daily_aggregates := []
    insight_flags := [c5OldFlag] }

theorem c5_full_refresh_witness :
    (((compute_insights 0 c5St).2.insight_flags.filter
        (fun f => f.is_active == 1)).map InsightFlag.content = newContents 0 c5St)
    ∧ ({ c5OldFlag with is_active := 0, resolved_at := some 0 } : InsightFlag)
        ∈ (compute_insights 0 c5St).2.insight_flags :=
  ⟨(c5_full_refresh 0 c5St).1,
   (c5_full_refresh 0 c5St).2.1 c5OldFlag (by simp [c5St]) rfl⟩

/-! ### Rule-wise decomposition of the derived contents -/

theorem filter_newContents_legacy (now : ℚ) (st : DBState) :
    (newContents now st).filter
        (fun c => c.insight_type == InsightType.LEGACY_PLAN)
      = legacyContents st := by
  rw [newContents, List.filter_append, List.filter_append]
  have h1 : ((highUsageLowRevenueRows st).map highContent).filter
      (fun c => c.insight_type == InsightType.LEGACY_PLAN) = [] := by
    rw [List.filter_eq_nil_iff]
    intro c hc
    obtain ⟨r, -, rfl⟩ := List.mem_map.mp hc
    simp [highContent]
  have h2 : ((unprofitableFeatureRows now st.daily_aggregates).map
      unprofContent).filter (fun c => c.insight_type == InsightType.LEGACY_PLAN)
      = [] := by
    rw [List.filter_eq_nil_iff]
    intro c hc
    obtain ⟨r, -, rfl⟩ := List.mem_map.mp hc
    simp [unprofContent]
  have h3 : (legacyContents st).filter
      (fun c => c.insight_type == InsightType.LEGACY_PLAN) = legacyContents st := by
    rw [List.filter_eq_self]
    intro c hc
    rw [legacyContents] at hc
    by_cases h : 0 < legacyCount st
    · rw [if_pos h] at hc
      rw [List.mem_singleton.mp hc]
      rfl
    · rw [if_neg h] at hc
      cases hc
  rw [h1, h2, h3, List.nil_append, List.nil_append]

theorem filter_newContents_unprof (now : ℚ) (st : DBState) :
    (newContents now st).filter
        (fun c => c.insight_type == InsightType.UNPROFITABLE_FEATURE)
      = (unprofitableFeatureRows now st.daily_aggregates).map unprofContent := by
  rw [newContents, List.filter_append, List.filter_append]
  have h1 : ((highUsageLowRevenueRows st).map highContent).filter
      (fun c => c.insight_type == InsightType.UNPROFITABLE_FEATURE) = [] := by
    rw [List.filter_eq_nil_iff]
    intro c hc
    obtain ⟨r, -, rfl⟩ := List.mem_map.mp hc
    simp [highContent]
  have h2 : ((unprofitableFeatureRows now st.daily_aggregates).map
      unprofContent).filter
      (fun c => c.insight_type == InsightType.UNPROFITABLE_FEATURE)
      = (unprofitableFeatureRows now st.daily_aggregates).map unprofContent := by
    rw [List.filter_eq_self]
    intro c hc
    obtain ⟨r, -, rfl⟩ := List.mem_map.mp hc
    rfl
  have h3 : (legacyContents st).filter
      (fun c => c.insight_type == InsightType.UNPROFITABLE_FEATURE) = [] := by
    rw [List.filter_eq_nil_iff]
    intro c hc
    rw [legacyContents] at hc
    by_cases h : 0 < legacyCount st
    · rw [if_pos h] at hc
      rw [List.mem_singleton.mp hc]
      simp [legacyContent]
    · rw [if_neg h] at hc
      cases hc
  rw [h1, h2, h3, List.nil_append, List.append_nil]

/-- C9: the legacy-plan rule counts the customers whose plan matches the
case-insensitive `%legacy%` pattern and emits exactly one WARNING flag with
no customer reference when the count is positive, and nothing otherwise. -/
theorem c9_legacy_plan_rule (now : ℚ) (st : DBState) :
    ((((compute_insights now st).2.insight_flags.filter
        (fun f => f.is_active == 1)).filter
        (fun f => f.insight_type == InsightType.LEGACY_PLAN)).map
      InsightFlag.content
      = if 0 < legacyCount st then [legacyContent (legacyCount st)] else [])
    ∧ legacyCount st = (st.customers.filter (fun c => likeLegacy c.plan)).length
    ∧ (legacyContent (legacyCount st)).severity = SeverityType.WARNING
    ∧ (legacyContent (legacyCount st)).customer_id = none := by
  refine ⟨?_, rfl, rfl, rfl⟩
  rw [active_after_compute]
  have hcongr : ∀ f : InsightFlag,
      (f.insight_type == InsightType.LEGACY_PLAN)
        = ((fun c : FlagContent => c.insight_type == InsightType.LEGACY_PLAN)
            f.content) := fun f => rfl
  rw [List.filter_congr (fun f _ => hcongr f),
    assignIds_filter_content _ _ _
      (fun c => c.insight_type == InsightType.LEGACY_PLAN),
    filter_newContents_legacy, legacyContents]

def c9St : DBState :=
  { customers := [⟨1, "e1", "A", some "Legacy-Pro"⟩, ⟨2, "e2", "B", some "enterprise"⟩,
      ⟨3, "e3", "C", none⟩]
    usage_events := []
    revenue_events := []
    daily_aggregates := []
    insight_flags := [] }

theorem c9_legacy_plan_rule_witness :
    (((compute_insights 0 c9St).2.insight_flags.filter
        (fun f => f.is_active == 1)).filter
        (fun f => f.insight_type == InsightType.LEGACY_PLAN)).map
      InsightFlag.content = [legacyContent 1] := by
  have h := (c9_legacy_plan_rule 0 c9St).1
  have hc : legacyCount c9St = 1 := by decide
  rw [h, hc]
  rfl

/-! ### The unprofitable-feature rule (C4) -/

/-- The rows the code actually aggregates for feature `f`: feature-scoped by
`feature == f` (the code never checks `customer_id`), lower-bounded by
`utcnow() - 30 days`, with no upper date bound. -/
def rows30 (now : ℚ) (aggs : List DailyAggregate) (f : String) : List DailyAggregate :=
  aggs.filter (fun a => decide (a.feature = some f ∧ now - 30 ≤ a.date))

/-- `sum(cost_total)` over the code's 30-day-lower-bounded rows of `f`. -/
def cost30 (now : ℚ) (aggs : List DailyAggregate) (f : String) : ℚ :=
  ((rows30 now aggs f).map (fun a => a.cost_total)).sum

/-- `sum(revenue_total)` over the code's 30-day-lower-bounded rows of `f`. -/
def rev30 (now : ℚ) (aggs : List DailyAggregate) (f : String) : ℚ :=
  ((rows30 now aggs f).map (fun a => a.revenue_total)).sum

/-- The claim's window, stated from the claim's words for comparison:
feature-scoped rows (customer null, feature populated) within the trailing
30-day window ENDING at evaluation time, i.e. `now - 30 ≤ date ≤ now`. -/
def claimWindowRows (now : ℚ) (aggs : List DailyAggregate) (f : String) :
    List DailyAggregate :=
  aggs.filter (fun a => decide (a.customer_id = none ∧ a.feature = some f
    ∧ now - 30 ≤ a.date ∧ a.date ≤ now))

/-- Cost sum over the claim's window. -/
def claimWindowCost (now : ℚ) (aggs : List DailyAggregate) (f : String) : ℚ :=
  ((claimWindowRows now aggs f).map (fun a => a.cost_total)).sum

/-- Revenue sum over the claim's window. -/
def claimWindowRev (now : ℚ) (aggs : List DailyAggregate) (f : String) : ℚ :=
  ((claimWindowRows now aggs f).map (fun a => a.revenue_total)).sum

theorem frows_eq (now : ℚ) (aggs : List DailyAggregate) (f : String) :
    ((aggs.filter (fun a => decide (a.feature ≠ none ∧ now - 30 ≤ a.date))).filter
      (fun a => decide (a.feature = some f))) = rows30 now aggs f := by
  rw [List.filter_filter, rows30]
  apply List.filter_congr
  intro a _
  by_cases h1 : a.feature = some f <;> by_cases h2 : now - 30 ≤ a.date <;>
    simp [h1, h2]

theorem unprof_mem (now : ℚ) (aggs : List DailyAggregate) (r : UnprofRow) :
    r ∈ unprofitableFeatureRows now aggs
      ↔ (cost30 now aggs r.feature > rev30 now aggs r.feature
          ∧ r.total_cost = cost30 now aggs r.feature
          ∧ r.total_revenue = rev30 now aggs r.feature) := by
  rw [unprofitableFeatureRows]
  constructor
  · intro hmem
    obtain ⟨f0, -, hg⟩ := List.mem_filterMap.mp hmem
    rw [frows_eq] at hg
    by_cases hc : cost30 now aggs f0 > rev30 now aggs f0
    · rw [cost30, rev30] at hc
      rw [if_pos hc] at hg
      obtain rfl := Option.some.inj hg
      exact ⟨hc, rfl, rfl⟩
    · rw [cost30, rev30] at hc
      rw [if_neg hc] at hg
      cases hg
  · rintro ⟨hgt, hc, hv⟩
    have hne : rows30 now aggs r.feature ≠ [] := by
      intro hnil
      rw [cost30, rev30, hnil] at hgt
      simp at hgt
    obtain ⟨a, ha⟩ := List.exists_mem_of_ne_nil _ hne
    rw [rows30] at ha
    obtain ⟨haggs, hpred⟩ := List.mem_filter.mp ha
    rw [decide_eq_true_eq] at hpred
    have hamem : a ∈ aggs.filter
        (fun x => decide (x.feature ≠ none ∧ now - 30 ≤ x.date)) := by
      apply List.mem_filter.mpr
      refine ⟨haggs, ?_⟩
      rw [decide_eq_true_eq]
      refine ⟨?_, hpred.2⟩
      rw [hpred.1]
      exact Option.some_ne_none _
    have hfeat : r.feature ∈ ((aggs.filter
        (fun x => decide (x.feature ≠ none ∧ now - 30 ≤ x.date))).filterMap
        (fun x => x.feature)).dedup := by
      apply List.mem_dedup.mpr
      exact List.mem_filterMap.mpr ⟨a, hamem, hpred.1⟩
    apply List.mem_filterMap.mpr
    refine ⟨r.feature, hfeat, ?_⟩
    rw [frows_eq]
    rw [cost30, rev30] at hgt
    rw [if_pos hgt]
    rw [cost30] at hc
    rw [rev30] at hv
    rw [← hc, ← hv]

/-- C4 (amended): a feature receives an unprofitable-feature flag exactly
when the cost sum exceeds the revenue sum over its `DailyAggregate` rows
with `feature` populated and `date ≥ now − 30 days` (the code bounds the
window below only and does not require `customer_id` to be null); the flag
is CRITICAL exactly when the loss strictly exceeds 1,000, so a loss of
exactly 1,000 yields WARNING. -/
theorem c4_unprofitable_amended (now : ℚ) (st : DBState) (f : String) :
    ((((compute_insights now st).2.insight_flags.filter
        (fun fl => fl.is_active == 1)).filter
        (fun fl => fl.insight_type == InsightType.UNPROFITABLE_FEATURE)).map
      InsightFlag.content
      = (unprofitableFeatureRows now st.daily_aggregates).map unprofContent)
    ∧ ((∃ r ∈ unprofitableFeatureRows now st.daily_aggregates, r.feature = f)
        ↔ cost30 now st.daily_aggregates f > rev30 now st.daily_aggregates f)
    ∧ (∀ r ∈ unprofitableFeatureRows now st.daily_aggregates, r.feature = f →
        r.total_cost = cost30 now st.daily_aggregates f
          ∧ r.total_revenue = rev30 now st.daily_aggregates f)
    ∧ (∀ r : UnprofRow, (unprofContent r).severity = SeverityType.CRITICAL
        ↔ r.total_cost - r.total_revenue > 1000) := by
  refine ⟨?_, ?_, ?_, ?_⟩
  · rw [active_after_compute]
    have hcongr : ∀ fl : InsightFlag,
        (fl.insight_type == InsightType.UNPROFITABLE_FEATURE)
          = ((fun c : FlagContent =>
              c.insight_type == InsightType.UNPROFITABLE_FEATURE) fl.content) :=
      fun fl => rfl
    rw [List.filter_congr (fun fl _ => hcongr fl),
      assignIds_filter_content _ _ _
        (fun c => c.insight_type == InsightType.UNPROFITABLE_FEATURE),
      filter_newContents_unprof]
  · constructor
    · rintro ⟨r, hr, rfl⟩
      exact ((unprof_mem now st.daily_aggregates r).mp hr).1
    · intro h
      refine ⟨⟨f, cost30 now st.daily_aggregates f, rev30 now st.daily_aggregates f⟩,
        ?_, rfl⟩
      exact (unprof_mem now st.daily_aggregates _).mpr ⟨h, rfl, rfl⟩
  · intro r hr hf
    obtain ⟨-, hc, hv⟩ := (unprof_mem now st.daily_aggregates r).mp hr
    rw [hf] at hc hv
    exact ⟨hc, hv⟩
  · intro r
    by_cases h : r.total_cost - r.total_revenue > 1000
    · simp [unprofContent, h]
    · simp [unprofContent, h]

def c4St : DBState :=
  { customers := []
    usage_events := []
    revenue_events := []
    daily_aggregates := [⟨5, some 1, some "api", 0, 0, 0, 50⟩]
    insight_flags := [] }

theorem assignIds_mem_of_mem (b : Nat) (now : ℚ) {l : List FlagContent}
    {c : FlagContent} (h : c ∈ l) :
    ∃ fl ∈ assignIds b now l, fl.content = c ∧ fl.is_active = 1 := by
  induction l generalizing b with
  | nil => cases h
  | cons x xs ih =>
    rcases List.mem_cons.mp h with rfl | hmem
    · exact ⟨mkFlag (b + 1) now c, List.mem_cons_self _ _, rfl, rfl⟩
    · obtain ⟨fl, hfl, hc, ha⟩ := ih (b + 1) hmem
      exact ⟨fl, List.mem_cons_of_mem _ hfl, hc, ha⟩

/-- C4 (counterexample): with a single aggregate row for feature `api` that
is customer-attached and dated 5 days AFTER the evaluation instant 0, the
code still emits an unprofitable-feature flag, while the claim's
trailing-30-day window ending at evaluation time contains no rows at all,
so its cost sum does not exceed its revenue sum — the claimed "if and only
if" is false at this store. -/
theorem c4_unprofitable_counterexample :
    (∃ fl ∈ (compute_insights 0 c4St).2.insight_flags,
        fl.is_active = 1 ∧ fl.insight_type = InsightType.UNPROFITABLE_FEATURE)
    ∧ ¬ (claimWindowCost 0 c4St.daily_aggregates "api"
          > claimWindowRev 0 c4St.daily_aggregates "api") := by
  constructor
  · have hr : (⟨"api", 50, 0⟩ : UnprofRow)
        ∈ unprofitableFeatureRows 0 c4St.daily_aggregates := by
      apply (unprof_mem 0 c4St.daily_aggregates _).mpr
      refine ⟨?_, ?_, ?_⟩ <;> norm_num [cost30, rev30, rows30, c4St]
    have hcont : unprofContent ⟨"api", 50, 0⟩ ∈ newContents 0 c4St := by
      rw [newContents]
      exact List.mem_append_left _
        (List.mem_append_right _ (List.mem_map_of_mem _ hr))
    obtain ⟨fl, hfl, hc, ha⟩ :=
      assignIds_mem_of_mem (maxFlagId c4St.insight_flags) 0 hcont
    refine ⟨fl, ?_, ha, ?_⟩
    · show fl ∈ c4St.insight_flags.map (deactivate 0) ++ _
      exact List.mem_append_right _ hfl
    · have := congrArg FlagContent.insight_type hc
      exact this
  · norm_num [claimWindowCost, claimWindowRev, claimWindowRows, c4St]

def c4wSt : DBState :=
  { customers := []
    usage_events := []
    revenue_events := []
    daily_aggregates := [⟨0, none, some "pay", 0, 0, 200, 1200⟩]
    insight_flags := [] }

theorem c4_unprofitable_amended_witness :
    (∃ r ∈ unprofitableFeatureRows 1 c4wSt.daily_aggregates, r.feature = "pay")
    ∧ ¬ ((unprofContent ⟨"pay", 1200, 200⟩).severity = SeverityType.CRITICAL) :=
  ⟨(c4_unprofitable_amended 1 c4wSt "pay").2.1.mpr
      (by norm_num [cost30, rev30, rows30, c4wSt]),
   fun h => by
     have hiff :=
       ((c4_unprofitable_amended 1 c4wSt "pay").2.2.2 ⟨"pay", 1200, 200⟩).mp h
     norm_num at hiff⟩

/-! ### The high-usage/low-revenue join (C1) -/

def c1St : DBState :=
  { customers := [⟨1, "cust-1", "Acme", some "pro"⟩]
    usage_events := [⟨1, 1, "api", 3000, 0, 0⟩, ⟨2, 1, "api", 3000, 0, 0⟩]
    revenue_events := [⟨1, 1, 10, 0⟩, ⟨2, 1, 10, 0⟩]
    daily_aggregates := []
    insight_flags := [] }

/-- C1 (code bug exhibit): customer 1 has a true usage sum of 6,000 (two
events of 3,000) and a true revenue sum of 20 (two events of 10), so the
claimed rule (usage sum > 10,000) must not fire.  The code's join pairs
every usage row with every revenue row, so its `SUM(quantity)` is
6,000 × 2 = 12,000 and it emits a CRITICAL high-usage/low-revenue flag for
the customer anyway — and even its own message reports the inflated
12,000 as the customer's usage. -/
theorem c1_join_fanout_bug :
    ((highUsageLowRevenueRows c1St).map
        (fun r => (r.id, r.total_usage, r.total_revenue)) = [(1, 12000, some 40)])
    ∧ (∃ fl ∈ (compute_insights 0 c1St).2.insight_flags,
        fl.is_active = 1 ∧ fl.insight_type = InsightType.LOW_REVENUE
          ∧ fl.customer_id = some 1)
    ∧ ((c1St.usage_events.filter (fun e => decide (e.customer_id = 1))).map
        (fun e => e.quantity)).sum = 6000
    ∧ ((c1St.revenue_events.filter (fun r => decide (r.customer_id = 1))).map
        (fun r => r.amount)).sum = 20
    ∧ ¬ ((6000 : ℚ) > 10000) := by
  have hrow : (⟨1, "Acme", 12000, some 40⟩ : HighUsageRow)
      ∈ highUsageLowRevenueRows c1St := by
    norm_num [highUsageLowRevenueRows, c1St, custAllUsage, custAllRevenue,
      List.filterMap_cons]
  refine ⟨?_, ?_, ?_, ?_, by norm_num⟩
  · norm_num [highUsageLowRevenueRows, c1St, custAllUsage, custAllRevenue,
      List.filterMap_cons]
  · have hcont : highContent ⟨1, "Acme", 12000, some 40⟩ ∈ newContents 0 c1St := by
      rw [newContents]
      exact List.mem_append_left _
        (List.mem_append_left _ (List.mem_map_of_mem _ hrow))
    obtain ⟨fl, hfl, hc, ha⟩ :=
      assignIds_mem_of_mem (maxFlagId c1St.insight_flags) 0 hcont
    refine ⟨fl, ?_, ha, ?_, ?_⟩
    · show fl ∈ c1St.insight_flags.map (deactivate 0) ++ _
      exact List.mem_append_right _ hfl
    · exact congrArg FlagContent.insight_type hc
    · exact congrArg FlagContent.customer_id hc
  · norm_num [c1St]
  · norm_num [c1St]

/-! ### Ordering of active insights (C2) -/

def c2Crit : InsightFlag :=
  ⟨1, some 1, InsightType.LOW_REVENUE, SeverityType.CRITICAL, "customer",
    "t1", "m1", none, 1, 0, none⟩

def c2Warn : InsightFlag :=
  ⟨2, none, InsightType.LEGACY_PLAN, SeverityType.WARNING, "usage",
    "t2", "m2", none, 1, 0, none⟩

def c2St : DBState := ⟨[], [], [], [], [c2Crit, c2Warn]⟩

/-- C2 (code bug exhibit): with one active CRITICAL and one active WARNING
flag created at the same instant, `get_active_insights` returns the WARNING
record first: `ORDER BY severity DESC` sorts the persisted enum member
names as strings, and `WARNING > INFO > CRITICAL` in byte order, the
reverse of the claimed severity ranking. -/
theorem c2_severity_order_bug :
    ((get_active_insights c2St).map (fun r => r.type) = ["warning", "critical"])
    ∧ charsLt ("CRITICAL".data) ("WARNING".data) = true := by
  constructor
  · decide
  · decide

/-! ### The response record of `get_active_insights` (C10) -/

/-- C10: the endpoint returns, for each active flag in the retrieval order,
a record of exactly the six fields id/type/category/title/description/
metric; the `type` field carries the severity's string value, and the
record does not depend on the flag's `insight_type` (or any other column
beyond the six sources). -/
theorem c10_record_shape (st : DBState) :
    (get_active_insights st
      = (sortByB flagOrder (st.insight_flags.filter
          (fun f => f.is_active == 1))).map recordOfFlag)
    ∧ (∀ f : InsightFlag, (recordOfFlag f).type = severityValue f.severity)
    ∧ (∀ f g : InsightFlag, f.id = g.id → f.severity = g.severity →
        f.category = g.category → f.title = g.title → f.message = g.message →
        f.metric_value = g.metric_value → recordOfFlag f = recordOfFlag g) := by
  refine ⟨rfl, fun f => rfl, ?_⟩
  intro f g h1 h2 h3 h4 h5 h6
  rw [recordOfFlag, recordOfFlag, h1, h2, h3, h4, h5, h6]

def c10A : InsightFlag :=
  ⟨5, some 2, InsightType.LOW_REVENUE, SeverityType.CRITICAL, "customer",
    "T", "M", none, 1, 0, none⟩

def c10B : InsightFlag :=
  ⟨5, some 2, InsightType.LEGACY_PLAN, SeverityType.CRITICAL, "customer",
    "T", "M", none, 1, 0, none⟩

theorem c10_record_shape_witness :
    recordOfFlag c10A = recordOfFlag c10B
      ∧ (recordOfFlag c10A).type = "critical" :=
  ⟨(c10_record_shape ⟨[], [], [], [], []⟩).2.2 c10A c10B rfl rfl rfl rfl rfl rfl,
   ((c10_record_shape ⟨[], [], [], [], []⟩).2.1 c10A).trans rfl⟩

/-! ### Division guards in the dashboard (C6) -/

/-- C6: every feature-metric entry's profit margin is
`(revenue − cost) / revenue * 100` with the denominator replaced by 1 when
revenue is zero (so zero revenue and cost `c` give `−100·c`, e.g. −5000%
for cost 50), the denominator used is never zero, and the summary's overall
margin is 0 when total revenue is zero; no division by zero can occur. -/
theorem c6_division_guard (s e : ℚ) (st : DBState) :
    (∀ fm ∈ (get_dashboard_data s e st).feature_metrics,
      fm.profit_margin = (fm.revenue - fm.total_cost)
          / (if fm.revenue = 0 then 1 else fm.revenue) * 100
      ∧ (if fm.revenue = 0 then (1 : ℚ) else fm.revenue) ≠ 0
      ∧ (fm.revenue = 0 → fm.profit_margin = (0 - fm.total_cost) * 100))
    ∧ ((get_dashboard_data s e st).summary.total_revenue = 0 →
        (get_dashboard_data s e st).summary.profit_margin_percentage = 0) := by
  constructor
  · intro fm hfm
    obtain ⟨f, -, heq⟩ := List.mem_map.mp hfm
    have h1 : fm.profit_margin = (fm.revenue - fm.total_cost)
        / (if fm.revenue = 0 then 1 else fm.revenue) * 100 := by
      rw [← heq]
    refine ⟨h1, ?_, ?_⟩
    · by_cases h : fm.revenue = 0
      · rw [if_pos h]
        norm_num
      · rw [if_neg h]
        exact h
    · intro h0
      rw [h1, h0, if_pos rfl, div_one]
  · intro h
    show (if 0 < (get_dashboard_data s e st).summary.total_revenue
        then (get_dashboard_data s e st).summary.total_profit
          / (get_dashboard_data s e st).summary.total_revenue * 100
        else 0) = 0
    rw [h]
    norm_num

def c6St : DBState :=
  { customers := []
    usage_events := []
    revenue_events := []
    daily_aggregates := [⟨1, none, some "api", 5, 2, 0, 50⟩]
    insight_flags := [] }

theorem c6_fm_eval : (get_dashboard_data 0 2 c6St).feature_metrics
    = [⟨"api", 5, 50, 0, -5000⟩] := by
  have h1 : fmRows 0 2 c6St.daily_aggregates = c6St.daily_aggregates := by decide
  have h3 : ((c6St.daily_aggregates).filterMap (fun a => a.feature)).dedup
      = ["api"] := by decide
  have h4 : truncInt 5 = 5 := by decide
  have h5 : (c6St.daily_aggregates).filter
      (fun a => decide (a.feature = some "api")) = c6St.daily_aggregates := by
    decide
  simp only [get_dashboard_data, h1, h3, List.map_cons, List.map_nil, h5]
  norm_num [c6St, h4]

theorem c6_division_guard_witness :
    ((⟨"api", 5, 50, 0, -5000⟩ : FeatureMetric)
        ∈ (get_dashboard_data 0 2 c6St).feature_metrics)
    ∧ ((⟨"api", 5, 50, 0, -5000⟩ : FeatureMetric).profit_margin
        = ((⟨"api", 5, 50, 0, -5000⟩ : FeatureMetric).revenue
            - (⟨"api", 5, 50, 0, -5000⟩ : FeatureMetric).total_cost)
          / (if (⟨"api", 5, 50, 0, -5000⟩ : FeatureMetric).revenue = 0 then 1
             else (⟨"api", 5, 50, 0, -5000⟩ : FeatureMetric).revenue) * 100
      ∧ (if (⟨"api", 5, 50, 0, -5000⟩ : FeatureMetric).revenue = 0 then (1 : ℚ)
         else (⟨"api", 5, 50, 0, -5000⟩ : FeatureMetric).revenue) ≠ 0
      ∧ ((⟨"api", 5, 50, 0, -5000⟩ : FeatureMetric).revenue = 0 →
          (⟨"api", 5, 50, 0, -5000⟩ : FeatureMetric).profit_margin
            = (0 - (⟨"api", 5, 50, 0, -5000⟩ : FeatureMetric).total_cost) * 100))
    ∧ (get_dashboard_data 0 2 c6St).summary.profit_margin_percentage = 0 := by
  have hmem : (⟨"api", 5, 50, 0, -5000⟩ : FeatureMetric)
      ∈ (get_dashboard_data 0 2 c6St).feature_metrics := by
    rw [c6_fm_eval]
    exact List.mem_singleton.mpr rfl
  refine ⟨hmem, (c6_division_guard 0 2 c6St).1 _ hmem, ?_⟩
  have h2 : tsRows 0 2 c6St.daily_aggregates = [] := by decide
  have hrev : (get_dashboard_data 0 2 c6St).summary.total_revenue = 0 := by
    simp only [get_dashboard_data, h2]
    rfl
  exact (c6_division_guard 0 2 c6St).2 hrev
